import Mathlib

/-!
Verification development for the pocket_todo_genai repository.

The repository is a single-page to-do application: an external LLM call
classifies free-form user text into one of five actions, a response
normalizer repairs the model output (`createTasklistFlow` in
`src/ai/flows/create-task-list.ts`, first revision in the file, lines
148-273), and the page component applies the normalized action to the
in-memory task list (`handleListCreated`, `handleClearList`,
`handleCompleteAllTasks` in `src/app/page.tsx`, second revision in the
file, lines 360-759).  A separate flow (`provideTaskInsightFlow`) returns
task insights with a degraded-result fallback.

The definitions below are a shallow embedding of that TypeScript code:
strings are Lean `String` (a wrapper around `List Char`), JavaScript
`trim`/`toLowerCase`/`includes` are modelled over the character list,
`crypto.randomUUID()` is modelled as drawing successive values from a
fresh-id counter, and the external model call is modelled as an explicit
outcome value (returned output, missing output, or thrown error).
-/

namespace PocketTodo

/-- Model of a whitespace character as trimmed by JavaScript `String.trim`
(restricted to the common ASCII whitespace characters). -/
def isWsChar (c : Char) : Bool :=
  c = ' ' || c = '\t' || c = '\n' || c = '\r'

/-- Model of JavaScript `s.trim()`: drop whitespace from both ends. -/
def trimStr (s : String) : String :=
  ⟨((s.data.dropWhile isWsChar).reverse.dropWhile isWsChar).reverse⟩

/-- Model of JavaScript `s.toLowerCase()` (ASCII case folding). -/
def lowerStr (s : String) : String :=
  ⟨s.data.map Char.toLower⟩

/-- Model of `s.charAt(0).toUpperCase() + s.slice(1)` guarded by
`s.length > 0`, as used for prompt capitalization in the flow. -/
def capitalizeStr (s : String) : String :=
  match s.data with
  | [] => s
  | c :: cs => ⟨Char.toUpper c :: cs⟩

/-- Whether `pat` occurs at the start of `l`. -/
def listStartsWith : List Char → List Char → Bool
  | [], _ => true
  | _ :: _, [] => false
  | p :: ps, c :: cs => p = c && listStartsWith ps cs

/-- Whether `pat` occurs somewhere inside `l`. -/
def listOccurs (pat : List Char) : List Char → Bool
  | [] => pat.isEmpty
  | c :: cs => listStartsWith pat (c :: cs) || listOccurs pat cs

/-- Model of JavaScript `s.includes(pat)`. -/
def strIncludes (s pat : String) : Bool :=
  listOccurs pat.data s.data

/-- A word character in the sense of the regex class `\w`. -/
def isWordChar (c : Char) : Bool :=
  c.isAlphanum || c = '_'

/-- Scan for an occurrence of the regex `\band\b` in a character list; the
Boolean argument records whether the previous character was a word
character. -/
def hasWordAndAux : Bool → List Char → Bool
  | _, [] => false
  | prevW, c :: cs =>
    (!prevW && c = 'a' &&
      (match cs with
       | 'n' :: 'd' :: [] => true
       | 'n' :: 'd' :: d :: _ => !isWordChar d
       | _ => false))
    || hasWordAndAux (isWordChar c) cs

/-- Model of `/(\band\b|,|plan|list of)/i.test(prompt)`: the prompt is
lowercased once, which is equivalent to the case-insensitive flag for
these ASCII patterns. -/
def hasListIndicator (prompt : String) : Bool :=
  let l := lowerStr prompt
  hasWordAndAux false l.data || strIncludes l "," || strIncludes l "plan"
    || strIncludes l "list of"

/-- The `seemsLikeSingleRequest` test inside `createTasklistFlow`
(create-task-list.ts line 179): the prompt has none of the
list-indicating tokens. -/
def seemsLikeSingleRequest (prompt : String) : Bool :=
  !hasListIndicator prompt

/-- Model of `Array.from(new Set(l))` on strings: de-duplicate keeping the
first occurrence of each value, in order; `seen` accumulates the values
already emitted. -/
def dedupAux (seen : List String) : List String → List String
  | [] => []
  | x :: xs => if x ∈ seen then dedupAux seen xs else x :: dedupAux (x :: seen) xs

/-- De-duplication keeping first occurrences, as `Array.from(new Set(l))`. -/
def dedupKeepFirst (l : List String) : List String :=
  dedupAux [] l

/-- The five actions of the classifier output schema
(`CreateTaskListOutputSchema.action` in create-task-list.ts line 37). -/
inductive TaskAction where
  | add_tasks
  | clear_all_tasks
  | complete_all_tasks
  | query_task_count
  | no_action_conversational_reply
deriving DecidableEq, Repr

/-- The raw model output as seen by the flow after the genkit call
(`const {output} = await prompt(input)`): the whole object may be null
(modelled by wrapping in `Option` at the use site), `taskList` may be
absent or not an array (modelled as `none`), `reasoning` and `action` are
optional schema fields. -/
structure RawOutput where
  taskList : Option (List String)
  reasoning : Option String
  action : Option TaskAction
deriving DecidableEq, Repr

/-- The normalized flow result (`CreateTaskListOutput`): the flow always
returns a task list, a reasoning string and an action. -/
structure CreateTaskListOutput where
  taskList : List String
  reasoning : String
  action : TaskAction
deriving DecidableEq, Repr

/-- Outcome of the external model call inside `createTasklistFlow`: either
the awaited prompt returned (with a possibly-null output object), or it
threw (with an optional `error.message` string). -/
inductive FlowCall where
  | ok (out : Option RawOutput)
  | thrown (msg : Option String)
deriving DecidableEq, Repr

/-- JavaScript truthiness test `!reasoning` on an optional string: absent
or empty strings are falsy. -/
def strFalsy : Option String → Bool
  | none => true
  | some s => s = ""

/-- `output?.taskList && Array.isArray(output.taskList) ? output.taskList : []`
(create-task-list.ts line 158). -/
def rawTaskList (out : Option RawOutput) : List String :=
  (out.bind RawOutput.taskList).getD []

/-- `output?.reasoning` (create-task-list.ts line 159). -/
def rawReasoning (out : Option RawOutput) : Option String :=
  out.bind RawOutput.reasoning

/-- `output?.action || "add_tasks"` (create-task-list.ts line 160). -/
def rawAction (out : Option RawOutput) : TaskAction :=
  (out.bind RawOutput.action).getD .add_tasks

/-- The echo-collapse post-processing of `createTasklistFlow`
(create-task-list.ts lines 162-186): when the action is `add_tasks` and
the list has more than one entry, collapse to a single entry if either
every entry equals the prompt after trim and case-fold, or all entries
are identical after trim while the prompt lacks list-indicating tokens. -/
def collapseEcho (prompt : String) (action : TaskAction) (tl : List String) :
    List String :=
  if action = .add_tasks ∧ 1 < tl.length then
    let promptLowerTrimmed := lowerStr (trimStr prompt)
    if tl.all (fun t => decide (lowerStr (trimStr t) = promptLowerTrimmed)) then
      match tl with
      | t0 :: _ => [trimStr t0]
      | [] => tl
    else
      match dedupKeepFirst (tl.map trimStr) with
      | [u] => if seemsLikeSingleRequest prompt then [u] else tl
      | _ => tl
  else tl

/-- The default-reasoning table of `createTasklistFlow`
(create-task-list.ts lines 189-235), applied when the model supplied no
(truthy) reasoning.  The final `else` of the source chain (lines 229-234)
is unreachable for schema-valid actions and is not represented. -/
def defaultReasoning (prompt : String) (action : TaskAction)
    (taskList : List String) : String :=
  match action with
  | .clear_all_tasks =>
      "Okay, I\x27ve processed your request to clear all tasks. Your list will be emptied."
  | .complete_all_tasks =>
      "Okay, I\x27ve processed your request to mark all tasks as completed. Your tasks will be updated accordingly."
  | .query_task_count =>
      "You\x27re asking about your task count. The application will provide this information."
  | .no_action_conversational_reply =>
      "Hello! How can I help you with your tasks today?"
  | .add_tasks =>
      match taskList with
      | [singleTaskText] =>
          let trimmedTask := trimStr singleTaskText
          let capitalizedInputPrompt := capitalizeStr (trimStr prompt)
          if lowerStr trimmedTask = lowerStr (trimStr prompt)
              ∨ trimmedTask = capitalizedInputPrompt then
            s!"I\x27ve created a task based on your input: \x27{trimmedTask}\x27. If this wasn\x27t what you meant, try rephrasing or use the info button for more options."
          else
            s!"Okay, I\x27ve added \x27{trimmedTask}\x27 to your list. You can get more details or a breakdown using the info button!"
      | [] =>
          let capitalizedPrompt := capitalizeStr (trimStr prompt)
          s!"I\x27ve processed your request: \x27{capitalizedPrompt}\x27. No specific tasks were generated. If you intended to create tasks, try rephrasing."
      | _ :: _ :: _ =>
          let n := taskList.length
          s!"Alright, I\x27ve drafted a plan with {n} task(s) for you!"

/-- The per-action reasoning override used inside the final empty-list
check (create-task-list.ts lines 241-246); for `add_tasks` the already
computed reasoning is kept (that branch of the source never runs for
`add_tasks`). -/
def overrideReasoning (reasoning : String) : TaskAction → String
  | .clear_all_tasks =>
      "Okay, I\x27ve processed your request to clear all tasks. Your list will be emptied."
  | .complete_all_tasks =>
      "Okay, I\x27ve processed your request to mark all tasks as completed."
  | .query_task_count =>
      "You\x27re asking about your task count. The application will provide this information."
  | .no_action_conversational_reply =>
      "Hello! How can I help you today?"
  | .add_tasks => reasoning

/-- The success path of `createTasklistFlow` (create-task-list.ts lines
155-250): read the raw fields, run the echo-collapse, default the
reasoning, and finally force the task list empty whenever the action is
one of the four non-add actions. -/
def flowSuccess (prompt : String) (out : Option RawOutput) :
    CreateTaskListOutput :=
  let action := rawAction out
  let taskList1 := collapseEcho prompt action (rawTaskList out)
  let reasoning1 :=
    if strFalsy (rawReasoning out) then defaultReasoning prompt action taskList1
    else (rawReasoning out).getD ""
  if (action = .clear_all_tasks ∨ action = .complete_all_tasks
      ∨ action = .query_task_count ∨ action = .no_action_conversational_reply)
      ∧ 0 < taskList1.length then
    { taskList := [],
      reasoning :=
        if strFalsy (rawReasoning out) then overrideReasoning reasoning1 action
        else reasoning1,
      action := action }
  else
    { taskList := taskList1, reasoning := reasoning1, action := action }

/-- The catch path of `createTasklistFlow` (create-task-list.ts lines
251-271): derive `errorMessage` from the thrown error and pick a
user-friendly apologetic message; always return `add_tasks` with an empty
list. -/
def flowErrorResult (msg : Option String) : CreateTaskListOutput :=
  let errorMessage := msg.getD "An unknown error occurred with the AI service."
  let lower := lowerStr errorMessage
  let userFriendlyMessage :=
    if strIncludes errorMessage "503" || strIncludes lower "overloaded"
        || strIncludes lower "unavailable" then
      "The AI service is currently overloaded or unavailable. Please try again in a little while."
    else if strIncludes lower "api key" then
      "There seems to be an issue with the AI service configuration. Please contact support."
    else if strIncludes lower "malformed" || strIncludes lower "parse" then
      "The AI returned an unexpected response. I\x27ll try to handle it, but you might want to rephrase your request."
    else
      "I\x27m having trouble connecting to the AI service right now. Please try again in a few moments."
  { taskList := [], reasoning := userFriendlyMessage, action := .add_tasks }

/-- `createTasklistFlow` as a function of the prompt and the modelled
call outcome. -/
def createTasklistFlow (prompt : String) : FlowCall → CreateTaskListOutput
  | .ok out => flowSuccess prompt out
  | .thrown msg => flowErrorResult msg

/-- A task record (`src/lib/types` `Task`): `crypto.randomUUID()` produces
an opaque unique string id; ids are modelled as natural numbers drawn from
a fresh-id counter, which preserves exactly the freshness and uniqueness
relied on by the code. -/
structure Task where
  id : Nat
  text : String
  completed : Bool
deriving DecidableEq, Repr

/-- `handleClearList` (page.tsx lines 416-422): read the current count,
set the list to empty, and return whether any task existed. -/
def handleClearList (ts : List Task) : List Task × Bool :=
  (([] : List Task), decide (0 < ts.length))

/-- `handleCompleteAllTasks` (page.tsx lines 425-437): when the list is
empty or every task is already completed, leave the list unchanged and
return `false`; otherwise mark every task completed and return `true`. -/
def handleCompleteAllTasks (ts : List Task) : List Task × Bool :=
  if ts.length = 0 ∨ ts.all (fun t => t.completed) then (ts, false)
  else (ts.map (fun t => { t with completed := true }), true)

/-- The task records built by the add branch of `handleListCreated`
(page.tsx lines 480-485): one `Task` per string with a fresh id and
`completed := false`; fresh ids are successive counter values. -/
def mkTasks (nid : Nat) : List String → List Task
  | [] => []
  | s :: ss => { id := nid, text := s, completed := false } :: mkTasks (nid + 1) ss

/-- The list-mutator view of the add branch (page.tsx line 499): prepend
the new tasks to the existing list and advance the id counter. -/
def addTasks (strs : List String) (nid : Nat) (ts : List Task) :
    List Task × Nat :=
  (mkTasks nid strs ++ ts, nid + strs.length)

/-- A toast notification (title and description) as raised by the page. -/
structure Toast where
  title : String
  description : String
deriving DecidableEq, Repr

/-- Result of one `handleListCreated` dispatch: the updated task list, the
`aiMessage` banner text, the toast raised, and the advanced id counter. -/
structure PageResult where
  tasks : List Task
  aiMessage : String
  toast : Toast
  nextId : Nat
deriving DecidableEq, Repr

/-- `handleListCreated` (page.tsx lines 440-524): dispatch the normalized
classifier output against the current task list.  An absent `reasoning`
is modelled as the empty string (both are falsy in the source).  Note the
source has explicit branches only for `clear_all_tasks`,
`complete_all_tasks` and `query_task_count`; both `add_tasks` and
`no_action_conversational_reply` fall to the final `else` branch. -/
def handleListCreated (ts : List Task) (nid : Nat)
    (data : CreateTaskListOutput) : PageResult :=
  let msg0 := data.reasoning
  match data.action with
  | .clear_all_tasks =>
      let m :=
        if msg0 = "" then
          "Okay, I\x27ve processed your request to clear all tasks. Your list will be emptied."
        else msg0
      let cleared := handleClearList ts
      { tasks := cleared.1, aiMessage := m,
        toast :=
          if cleared.2 then
            { title := "List Cleared", description := "All tasks have been removed." }
          else
            { title := "List is already empty",
              description := "There are no tasks to remove." },
        nextId := nid }
  | .complete_all_tasks =>
      let m :=
        if msg0 = "" then
          "Okay, I\x27ve processed your request to mark all tasks as completed. Your tasks will be updated."
        else msg0
      let updated := handleCompleteAllTasks ts
      { tasks := updated.1, aiMessage := m,
        toast :=
          if updated.2 then
            { title := "All Tasks Completed!",
              description := "Great job, everything is marked as done!" }
          else if ts.length = 0 then
            { title := "No tasks to complete", description := "Your list is empty." }
          else
            { title := "All tasks already completed",
              description := "There are no pending tasks to mark as complete." },
        nextId := nid }
  | .query_task_count =>
      let m :=
        if msg0 = "" then
          "I understand you\x27re asking about your task count. You can see this number displayed at the top of your list."
        else msg0
      { tasks := ts, aiMessage := m,
        toast := { title := "AI Assistant", description := m }, nextId := nid }
  | .add_tasks | .no_action_conversational_reply =>
      let tasksToAdd := data.taskList
      if 0 < tasksToAdd.length then
        let added := addTasks tasksToAdd nid ts
        let m :=
          if msg0 = "" then
            match tasksToAdd with
            | [t0] =>
                s!"Okay, I\x27ve added \x27{t0}\x27 to your list. You can get more details or a breakdown using the info button!"
            | _ =>
                let n := tasksToAdd.length
                s!"Alright, I\x27ve drafted a plan with {n} task(s) for you!"
          else msg0
        { tasks := added.1, aiMessage := m,
          toast := { title := "Tasks Added!", description := m },
          nextId := added.2 }
      else if msg0 = "" then
        let m := "AI processed your request, but no new tasks were added."
        { tasks := ts, aiMessage := m,
          toast := { title := "AI Assistant", description := m }, nextId := nid }
      else
        { tasks := ts, aiMessage := msg0,
          toast := { title := "AI Assistant", description := msg0 }, nextId := nid }

/-- The insight flow output (`TaskInsightOutputSchema` in the current
revision of the insight flow, src/unnamed/part_001 lines 67-73):
`subTasks` is an optional field of the schema. -/
structure TaskInsightOutput where
  estimatedTimeToComplete : String
  potentialDependencies : String
  additionalNotes : String
  subTasks : Option (List String)
deriving DecidableEq, Repr

/-- Outcome of the external model call inside `provideTaskInsightFlow`:
the call returned (with a possibly-null output) or threw. -/
inductive InsightCall where
  | ok (out : Option TaskInsightOutput)
  | thrown
deriving DecidableEq, Repr

/-- `provideTaskInsightFlow` (src/unnamed/part_001 lines 106-135): return
the model output when present; on missing output or a thrown error return
a degraded result with every field populated and an empty sub-task list,
never propagating the failure (the Lean function is total by
construction). -/
def provideTaskInsightFlow : InsightCall → TaskInsightOutput
  | .ok (some out) => out
  | .ok none =>
      { estimatedTimeToComplete := "Not available",
        potentialDependencies := "Not available",
        additionalNotes :=
          "AI could not provide specific insights for this task at the moment.",
        subTasks := some [] }
  | .thrown =>
      { estimatedTimeToComplete := "Error",
        potentialDependencies := "Error",
        additionalNotes :=
          "I\x27m having trouble connecting to the AI service for insights. Please try again in a few moments.",
        subTasks := some [] }

/-- A three-task state with exactly one completed task, used to evaluate
the task-count query path. -/
def c2state : List Task :=
  [{ id := 1, text := "A", completed := true },
   { id := 2, text := "B", completed := false },
   { id := 3, text := "C", completed := false }]

/-- A raw classifier result carrying `clear_all_tasks` together with a
non-empty task list, exercising the normalizer override. -/
def c1call : FlowCall :=
  .ok (some { taskList := some ["x"], reasoning := none,
              action := some .clear_all_tasks })

/-- A task list whose two entries both equal the prompt "buy milk" after
trim and case-fold, triggering the echo collapse. -/
def c8tl : List String := ["buy milk", "Buy Milk "]

/-! ## Helper lemmas -/

theorem flowSuccess_action (p : String) (out : Option RawOutput) :
    (flowSuccess p out).action = rawAction out := by
  unfold flowSuccess
  dsimp only
  split <;> rfl

theorem dedupAux_eq_nil (seen l : List String) (hd : dedupAux seen l = []) :
    ∀ x ∈ l, x ∈ seen := by
  induction l generalizing seen with
  | nil => simp
  | cons a as ih =>
    intro x hx
    unfold dedupAux at hd
    split at hd
    · rename_i ha
      rcases List.mem_cons.mp hx with rfl | hx
      · exact ha
      · exact ih seen hd x hx
    · cases hd

theorem dedupAux_eq_single (seen l : List String) (u : String)
    (hd : dedupAux seen l = [u]) : ∀ x ∈ l, x ∈ seen ∨ x = u := by
  induction l generalizing seen with
  | nil => simp
  | cons a as ih =>
    intro x hx
    unfold dedupAux at hd
    split at hd
    · rename_i ha
      rcases List.mem_cons.mp hx with rfl | hx
      · exact Or.inl ha
      · exact ih seen hd x hx
    · rename_i ha
      injection hd with h1 h2
      rcases List.mem_cons.mp hx with rfl | hx
      · exact Or.inr h1
      · rcases List.mem_cons.mp (dedupAux_eq_nil (a :: seen) as h2 x hx) with rfl | hs
        · exact Or.inr h1
        · exact Or.inl hs

theorem dedupAux_subset (seen l : List String) (x : String)
    (hx : x ∈ dedupAux seen l) : x ∈ l := by
  induction l generalizing seen with
  | nil => simp [dedupAux] at hx
  | cons a as ih =>
    unfold dedupAux at hx
    split at hx
    · exact List.mem_cons_of_mem a (ih seen hx)
    · rcases List.mem_cons.mp hx with rfl | hx
      · exact List.mem_cons_self x as
      · exact List.mem_cons_of_mem a (ih (a :: seen) hx)

theorem mkTasks_length (strs : List String) (nid : Nat) :
    (mkTasks nid strs).length = strs.length := by
  induction strs generalizing nid with
  | nil => rfl
  | cons s ss ih => simp [mkTasks, ih]

theorem mkTasks_map_text (strs : List String) (nid : Nat) :
    (mkTasks nid strs).map Task.text = strs := by
  induction strs generalizing nid with
  | nil => rfl
  | cons s ss ih => simp [mkTasks, ih]

theorem mkTasks_completed (strs : List String) (nid : Nat) :
    ∀ t ∈ mkTasks nid strs, t.completed = false := by
  induction strs generalizing nid with
  | nil => simp [mkTasks]
  | cons s ss ih =>
    intro t ht
    rcases List.mem_cons.mp ht with rfl | ht
    · rfl
    · exact ih (nid + 1) t ht

theorem mkTasks_id_bounds (strs : List String) (nid : Nat) :
    ∀ t ∈ mkTasks nid strs, nid ≤ t.id ∧ t.id < nid + strs.length := by
  induction strs generalizing nid with
  | nil => simp [mkTasks]
  | cons s ss ih =>
    intro t ht
    rcases List.mem_cons.mp ht with rfl | ht
    · simp
    · have := ih (nid + 1) t ht
      simp only [List.length_cons]
      omega

theorem mkTasks_id_nodup (strs : List String) (nid : Nat) :
    ((mkTasks nid strs).map Task.id).Nodup := by
  induction strs generalizing nid with
  | nil => simp [mkTasks]
  | cons s ss ih =>
    simp only [mkTasks, List.map_cons, List.nodup_cons]
    refine ⟨?_, ih (nid + 1)⟩
    intro hmem
    rcases List.mem_map.mp hmem with ⟨t, ht, hid⟩
    have := (mkTasks_id_bounds ss (nid + 1) t ht).1
    omega

/-! ## Claims -/

/-- C3: when the external call inside `provideTaskInsightFlow` fails
(throws or returns no output), the flow returns a result with every
string field populated and `subTasks` equal to the empty list; being a
total function, it never propagates the failure. -/
theorem c3_insight_degraded_result (call : InsightCall)
    (h : call = .ok none ∨ call = .thrown) :
    (provideTaskInsightFlow call).estimatedTimeToComplete ≠ ""
    ∧ (provideTaskInsightFlow call).potentialDependencies ≠ ""
    ∧ (provideTaskInsightFlow call).additionalNotes ≠ ""
    ∧ (provideTaskInsightFlow call).subTasks = some [] := by
  rcases h with h | h <;> subst h <;>
    exact ⟨by decide, by decide, by decide, rfl⟩

/-- Witness for C3 at the thrown-error outcome. -/
theorem c3_witness :
    (InsightCall.thrown = InsightCall.ok none
      ∨ InsightCall.thrown = InsightCall.thrown)
    ∧ ((provideTaskInsightFlow .thrown).estimatedTimeToComplete ≠ ""
       ∧ (provideTaskInsightFlow .thrown).potentialDependencies ≠ ""
       ∧ (provideTaskInsightFlow .thrown).additionalNotes ≠ ""
       ∧ (provideTaskInsightFlow .thrown).subTasks = some []) :=
  ⟨Or.inr rfl, c3_insight_degraded_result .thrown (Or.inr rfl)⟩

/-- C4: whenever the external model call inside `createTasklistFlow`
throws, the flow returns `action = add_tasks`, an empty task list, and a
non-empty apologetic reasoning message, for every prompt and every thrown
error message. -/
theorem c4_flow_error_fallback (prompt : String) (msg : Option String) :
    (createTasklistFlow prompt (.thrown msg)).action = .add_tasks
    ∧ (createTasklistFlow prompt (.thrown msg)).taskList = []
    ∧ (createTasklistFlow prompt (.thrown msg)).reasoning ≠ "" := by
  refine ⟨rfl, rfl, ?_⟩
  unfold createTasklistFlow flowErrorResult
  dsimp only
  split
  · decide
  · split
    · decide
    · split <;> decide

/-- C10: the complete-all operation is a frame-preserving update of the
`completed` field only: the result has the same length, and every task
keeps its id and its text positionally. -/
theorem c10_complete_all_frame (ts : List Task) :
    ((handleCompleteAllTasks ts).1).length = ts.length
    ∧ ((handleCompleteAllTasks ts).1).map Task.id = ts.map Task.id
    ∧ ((handleCompleteAllTasks ts).1).map Task.text = ts.map Task.text := by
  unfold handleCompleteAllTasks
  split
  · exact ⟨rfl, rfl, rfl⟩
  · refine ⟨by simp, ?_, ?_⟩ <;> simp [List.map_map]

/-- C2: evaluating the `query_task_count` handling path on a state with
3 tasks of which 1 is completed shows the user-facing message is the
classifier reasoning (or a canned deflection when absent) and never
states the literal counts; in particular the digit 3 does not occur in
the message.  This contradicts the spec, which requires a message built
from the computed total/completed/remaining counts. -/
theorem c2_query_count_no_literal_counts :
    (handleListCreated c2state 10 ⟨[], "", .query_task_count⟩).tasks = c2state
    ∧ (handleListCreated c2state 10 ⟨[], "", .query_task_count⟩).aiMessage =
        "I understand you\x27re asking about your task count. You can see this number displayed at the top of your list."
    ∧ strIncludes
        (handleListCreated c2state 10 ⟨[], "", .query_task_count⟩).aiMessage
        "3" = false
    ∧ (handleListCreated c2state 10
        ⟨[], "You\x27re asking about your task count. The application will provide this information.",
          .query_task_count⟩).tasks = c2state
    ∧ strIncludes
        (handleListCreated c2state 10
          ⟨[], "You\x27re asking about your task count. The application will provide this information.",
            .query_task_count⟩).aiMessage "3" = false := by
  exact ⟨rfl, rfl, by decide, rfl, by decide⟩

/-- C5: the clear-all operation always yields the empty list, returns
whether any task existed, and the clear branch of `handleListCreated`
raises the "List Cleared" toast exactly when the list was non-empty and
the "List is already empty" toast otherwise (in which case the list is
unchanged, both being empty). -/
theorem c5_clear_all (ts : List Task) (nid : Nat) (r : String) :
    (handleClearList ts).1 = []
    ∧ ((handleClearList ts).2 = true ↔ ts ≠ [])
    ∧ (handleListCreated ts nid ⟨[], r, .clear_all_tasks⟩).tasks = []
    ∧ (handleListCreated ts nid ⟨[], r, .clear_all_tasks⟩).toast =
        (if ts = [] then
          { title := "List is already empty",
            description := "There are no tasks to remove." }
         else
          ({ title := "List Cleared",
             description := "All tasks have been removed." } : Toast)) := by
  refine ⟨rfl, ?_, rfl, ?_⟩
  · cases ts <;> simp [handleClearList]
  · cases ts <;> simp [handleListCreated, handleClearList]

/-- C6: the complete-all operation marks every task completed and returns
`true` when some task was incomplete; on an empty list or an
all-completed list it leaves the list unchanged and returns `false`, and
the complete branch of `handleListCreated` raises three pairwise distinct
toasts for the three cases. -/
theorem c6_complete_all (ts : List Task) (nid : Nat) (r : String) :
    (if ts = [] then
      handleCompleteAllTasks ts = (ts, false)
      ∧ (handleListCreated ts nid ⟨[], r, .complete_all_tasks⟩).toast =
          { title := "No tasks to complete", description := "Your list is empty." }
     else if ts.all (fun t => t.completed) = true then
      handleCompleteAllTasks ts = (ts, false)
      ∧ (handleListCreated ts nid ⟨[], r, .complete_all_tasks⟩).toast =
          { title := "All tasks already completed",
            description := "There are no pending tasks to mark as complete." }
     else
      (handleCompleteAllTasks ts).2 = true
      ∧ ((handleCompleteAllTasks ts).1).all (fun t => t.completed) = true
      ∧ (handleListCreated ts nid ⟨[], r, .complete_all_tasks⟩).toast =
          { title := "All Tasks Completed!",
            description := "Great job, everything is marked as done!" })
    ∧ ({ title := "No tasks to complete", description := "Your list is empty." } : Toast)
        ≠ { title := "All tasks already completed",
            description := "There are no pending tasks to mark as complete." } := by
  refine ⟨?_, by decide⟩
  by_cases h0 : ts = []
  · subst h0
    simp [handleCompleteAllTasks, handleListCreated]
  · by_cases hall : ts.all (fun t => t.completed) = true
    · have he : handleCompleteAllTasks ts = (ts, false) := by
        unfold handleCompleteAllTasks
        exact if_pos (Or.inr hall)
      simp only [h0, if_false, hall, if_true]
      exact ⟨he, by simp [handleListCreated, he, h0]⟩
    · have hguard : ¬(ts.length = 0 ∨ (ts.all fun t => t.completed) = true) := by
        rintro (hl | ha)
        · exact h0 (List.length_eq_zero.mp hl)
        · exact hall ha
      have he : handleCompleteAllTasks ts =
          (ts.map (fun t => { t with completed := true }), true) := by
        unfold handleCompleteAllTasks
        exact if_neg hguard
      simp only [h0, if_false, hall, if_false]
      refine ⟨by rw [he], ?_, by simp [handleListCreated, he, h0]⟩
      rw [he]
      simp [List.all_eq_true]

/-- C1: for every prompt and every modelled call outcome, whenever the
normalized action is not `add_tasks`, the returned task list is empty —
even when the raw model output carried a non-empty task list. -/
theorem c1_non_add_action_empty_taskList (prompt : String) (call : FlowCall)
    (h : (createTasklistFlow prompt call).action ≠ .add_tasks) :
    (createTasklistFlow prompt call).taskList = [] := by
  cases call with
  | thrown msg => exact absurd rfl h
  | ok out =>
    have h' : rawAction out ≠ .add_tasks := by
      intro hA
      exact h (by rw [show (createTasklistFlow prompt (.ok out)).action =
        rawAction out from flowSuccess_action prompt out, hA])
    show (flowSuccess prompt out).taskList = []
    unfold flowSuccess
    dsimp only
    split
    · rfl
    · rename_i hcond
      have hdisj : rawAction out = .clear_all_tasks
          ∨ rawAction out = .complete_all_tasks
          ∨ rawAction out = .query_task_count
          ∨ rawAction out = .no_action_conversational_reply := by
        cases hA : rawAction out
        · exact absurd hA h'
        all_goals simp
      have hlen : ¬0 < (collapseEcho prompt (rawAction out)
          (rawTaskList out)).length := fun hl => hcond ⟨hdisj, hl⟩
      exact List.length_eq_zero.mp (Nat.eq_zero_of_not_pos hlen)

/-- Witness for C1: a raw output carrying `clear_all_tasks` together with
a non-empty task list is normalized to the empty list. -/
theorem c1_witness :
    (createTasklistFlow "hi" c1call).action ≠ .add_tasks
    ∧ (createTasklistFlow "hi" c1call).taskList = [] :=
  ⟨by decide, c1_non_add_action_empty_taskList "hi" c1call (by decide)⟩

/-- C7: adding tasks builds one record per input string, with fresh
pairwise-distinct ids not present in the previous list (given the
counter-freshness invariant), `completed = false`, the input texts in
order, prepended in front of the unchanged previous list; and the
round-trip for `["Buy milk"]` on the empty list yields exactly one
task with that text. -/
theorem c7_add_tasks (strs : List String) (ts : List Task) (nid : Nat)
    (h : ∀ t ∈ ts, t.id < nid) :
    (addTasks strs nid ts).1.length = strs.length + ts.length
    ∧ (addTasks strs nid ts).1.drop strs.length = ts
    ∧ ((addTasks strs nid ts).1.take strs.length).map Task.text = strs
    ∧ (∀ t ∈ (addTasks strs nid ts).1.take strs.length, t.completed = false)
    ∧ (((addTasks strs nid ts).1.take strs.length).map Task.id).Nodup
    ∧ (∀ t ∈ (addTasks strs nid ts).1.take strs.length, ∀ u ∈ ts, t.id ≠ u.id)
    ∧ addTasks ["Buy milk"] nid [] =
        ([{ id := nid, text := "Buy milk", completed := false }], nid + 1) := by
  have htake : (addTasks strs nid ts).1.take strs.length = mkTasks nid strs := by
    unfold addTasks
    exact List.take_left' (mkTasks_length strs nid)
  have hdrop : (addTasks strs nid ts).1.drop strs.length = ts := by
    unfold addTasks
    exact List.drop_left' (mkTasks_length strs nid)
  refine ⟨?_, hdrop, ?_, ?_, ?_, ?_, rfl⟩
  · unfold addTasks
    simp [mkTasks_length]
  · rw [htake]
    exact mkTasks_map_text strs nid
  · rw [htake]
    exact mkTasks_completed strs nid
  · rw [htake]
    exact mkTasks_id_nodup strs nid
  · rw [htake]
    intro t ht u hu
    have h1 := (mkTasks_id_bounds strs nid t ht).1
    have h2 := h u hu
    omega

/-- Witness for C7 at a concrete previous list and counter. -/
theorem c7_witness :
    (∀ t ∈ [Task.mk 0 "a" true], t.id < 5)
    ∧ ((addTasks ["Buy milk"] 5 [Task.mk 0 "a" true]).1.length =
          ["Buy milk"].length + [Task.mk 0 "a" true].length
       ∧ (addTasks ["Buy milk"] 5 [Task.mk 0 "a" true]).1.drop
            ["Buy milk"].length = [Task.mk 0 "a" true]
       ∧ ((addTasks ["Buy milk"] 5 [Task.mk 0 "a" true]).1.take
            ["Buy milk"].length).map Task.text = ["Buy milk"]
       ∧ (∀ t ∈ (addTasks ["Buy milk"] 5 [Task.mk 0 "a" true]).1.take
            ["Buy milk"].length, t.completed = false)
       ∧ (((addTasks ["Buy milk"] 5 [Task.mk 0 "a" true]).1.take
            ["Buy milk"].length).map Task.id).Nodup
       ∧ (∀ t ∈ (addTasks ["Buy milk"] 5 [Task.mk 0 "a" true]).1.take
            ["Buy milk"].length, ∀ u ∈ [Task.mk 0 "a" true], t.id ≠ u.id)
       ∧ addTasks ["Buy milk"] 5 [] =
           ([{ id := 5, text := "Buy milk", completed := false }], 5 + 1)) :=
  ⟨by decide, c7_add_tasks ["Buy milk"] [Task.mk 0 "a" true] 5 (by decide)⟩

/-- C8: the echo-collapse heuristic collapses a multi-entry `add_tasks`
task list only when all entries agree after trim and case-fold, or when
all entries agree after trim and the prompt has no list-indicating token;
and on the concrete input `["a", "b", "a"]` with prompt "buy a buy b" and
action omitted, the flow returns the list uncollapsed. -/
theorem c8_echo_collapse_only_when (prompt : String) (tl : List String)
    (hne : collapseEcho prompt .add_tasks tl ≠ tl) :
    ((∀ a ∈ tl, ∀ b ∈ tl, lowerStr (trimStr a) = lowerStr (trimStr b))
     ∨ ((∀ a ∈ tl, ∀ b ∈ tl, trimStr a = trimStr b)
        ∧ seemsLikeSingleRequest prompt = true))
    ∧ (createTasklistFlow "buy a buy b"
        (.ok (some { taskList := some ["a", "b", "a"], reasoning := some "r",
                     action := none }))).taskList = ["a", "b", "a"] := by
  refine ⟨?_, by decide⟩
  unfold collapseEcho at hne
  split at hne
  · dsimp only at hne
    split at hne
    · rename_i hall
      left
      intro a ha b hb
      have h1 := of_decide_eq_true (List.all_eq_true.mp hall a ha)
      have h2 := of_decide_eq_true (List.all_eq_true.mp hall b hb)
      rw [h1, h2]
    · rename_i hall
      split at hne
      · rename_i u hd
        split at hne
        · rename_i hs
          right
          refine ⟨?_, hs⟩
          intro a ha b hb
          have h1 := dedupAux_eq_single [] (tl.map trimStr) u hd (trimStr a)
            (List.mem_map_of_mem trimStr ha)
          have h2 := dedupAux_eq_single [] (tl.map trimStr) u hd (trimStr b)
            (List.mem_map_of_mem trimStr hb)
          simp only [List.not_mem_nil, false_or] at h1 h2
          rw [h1, h2]
        · exact absurd rfl hne
      · exact absurd rfl hne
  · exact absurd rfl hne

/-- Witness for C8: two entries that both equal the prompt "buy milk"
after trim and case-fold are collapsed, and the only-when condition holds
for them. -/
theorem c8_witness :
    collapseEcho "buy milk" .add_tasks c8tl ≠ c8tl
    ∧ (((∀ a ∈ c8tl, ∀ b ∈ c8tl, lowerStr (trimStr a) = lowerStr (trimStr b))
        ∨ ((∀ a ∈ c8tl, ∀ b ∈ c8tl, trimStr a = trimStr b)
           ∧ seemsLikeSingleRequest "buy milk" = true))
       ∧ (createTasklistFlow "buy a buy b"
           (.ok (some { taskList := some ["a", "b", "a"],
                        reasoning := some "r",
                        action := none }))).taskList = ["a", "b", "a"]) :=
  ⟨by decide, c8_echo_collapse_only_when "buy milk" c8tl (by decide)⟩

/-- C9 counterexample: an `add_tasks` output whose task list is
`["a", "", "a"]` passes through the normalizer verbatim — the empty entry
is not dropped, the duplicate is not removed, and no entry is
capitalized — contradicting the claimed trim/drop/capitalize/de-duplicate
pass. -/
theorem c9_counterexample :
    (createTasklistFlow "buy stuff"
      (.ok (some { taskList := some ["a", "", "a"], reasoning := some "r",
                   action := some .add_tasks }))).taskList = ["a", "", "a"]
    ∧ "" ∈ (createTasklistFlow "buy stuff"
        (.ok (some { taskList := some ["a", "", "a"], reasoning := some "r",
                     action := some .add_tasks }))).taskList
    ∧ ¬((createTasklistFlow "buy stuff"
        (.ok (some { taskList := some ["a", "", "a"], reasoning := some "r",
                     action := some .add_tasks }))).taskList).Nodup := by
  exact ⟨by decide, by decide, by decide⟩

/-- C9 amended: on the `add_tasks` path the normalizer applies no
per-entry trim/drop-empty/capitalize/de-duplicate pass; it either returns
the task list exactly as received, or (when the echo-collapse heuristic
fires) returns a single entry which is the trim of one of the received
entries. -/
theorem c9_amended_no_per_entry_normalization (prompt : String)
    (tl : List String) :
    collapseEcho prompt .add_tasks tl = tl
    ∨ ∃ t ∈ tl, collapseEcho prompt .add_tasks tl = [trimStr t] := by
  unfold collapseEcho
  split
  · dsimp only
    split
    · match tl with
      | [] => exact Or.inl rfl
      | t0 :: rest => exact Or.inr ⟨t0, List.mem_cons_self t0 rest, rfl⟩
    · split
      · rename_i u hd
        split
        · right
          have hu : u ∈ tl.map trimStr := by
            have : u ∈ dedupKeepFirst (tl.map trimStr) := by
              rw [hd]
              exact List.mem_singleton.mpr rfl
            exact dedupAux_subset [] (tl.map trimStr) u this
          rcases List.mem_map.mp hu with ⟨t, ht, hteq⟩
          exact ⟨t, ht, by rw [hteq]⟩
        · exact Or.inl rfl
      · exact Or.inl rfl
  · exact Or.inl rfl

end PocketTodo
